import Mathlib

/-!
Verification of the routing/forwarding core of the `proxy-node` repository.

The JavaScript sources are shallowly embedded: JS strings become Lean
`String` (a structure over `List Char`; all inputs of interest are ASCII, so
JS UTF-16 code-unit indexing agrees with `Char` indexing), JS `Map`s become
association lists threaded explicitly, thrown errors become `Except`, and
`Date.now()` timestamps become `Int` arguments passed explicitly.
-/

deriving instance DecidableEq for Except

namespace ProxyNode

/-! ## String primitives

JS string operations used by the sources, denoted on `String.data`. -/

/-- JS `a + b` on strings. -/
def strAppend (a b : String) : String := String.mk (a.data ++ b.data)

/-- JS `s.startsWith(pre)`. -/
def strStartsWith (s pre : String) : Bool := pre.data.isPrefixOf s.data

/-- JS `s.slice(n)` (for ASCII content, code units = chars). -/
def strDrop (s : String) (n : Nat) : String := String.mk (s.data.drop n)

/-! ## Pattern matcher (`src/proxy-utils.js` / `src/router.js`, `patternToRegex`)

`patternToRegex` escapes every regex-special character except `*`, replaces
`**` (first, via a placeholder) by `.*` and the remaining single `*` by
`[^/]*`, and wraps the result as `new RegExp('^' + regexStr)` — anchored at
the start only.  We embed the pattern as a token list (every non-`*`
character is a literal after the escaping step) and give the regex's
denotation: `regex.test(path)` holds iff some prefix of `path` is generated
by the token sequence. -/

inductive PatTok where
  | lit (c : Char)
  | star
  | dstar
deriving DecidableEq, Repr

/-- Scan the pattern exactly as the two `replace` calls do: each `**` (found
left to right, non-overlapping) becomes one `dstar`, each remaining `*`
becomes `star`, every other character is a literal. -/
def lexPattern : List Char → List PatTok
  | [] => []
  | '*' :: '*' :: cs => PatTok.dstar :: lexPattern cs
  | '*' :: cs => PatTok.star :: lexPattern cs
  | c :: cs => PatTok.lit c :: lexPattern cs

/-- The suffixes of `cs` reachable by deleting a run of non-`/` characters
from the front: the continuation points of `[^/]*`. -/
def starTails (cs : List Char) : List (List Char) :=
  cs :: match cs with
        | [] => []
        | c :: cs' => if c == '/' then [] else starTails cs'

/-- All suffixes of `cs`: the continuation points of `.*`. -/
def allTails (cs : List Char) : List (List Char) :=
  cs :: match cs with
        | [] => []
        | _ :: cs' => allTails cs'

/-- Acceptance of the compiled regex body on a string: some prefix of `cs`
is generated by the token list (the regex is `^`-anchored but has no `$`
anchor, so trailing characters of `cs` are ignored). -/
def matchToks : List PatTok → List Char → Bool
  | [], _ => true
  | PatTok.lit c :: ts, cs =>
    match cs with
    | [] => false
    | d :: cs' => c == d && matchToks ts cs'
  | PatTok.star :: ts, cs => (starTails cs).any fun rest => matchToks ts rest
  | PatTok.dstar :: ts, cs => (allTails cs).any fun rest => matchToks ts rest

/-- Denotation of `patternToRegex(pattern).test(path)`: the catch-all
patterns compile to `/.*/` which tests true on every string; otherwise the
`^`-anchored token regex is tested. -/
def patternTest (pattern path : String) : Bool :=
  if pattern == "/*" || pattern == "/**" then true
  else matchToks (lexPattern pattern.data) path.data

/-! ## Path rewriter (`getPatternPrefix`, `rewritePath`) -/

def dropLeadingStars : List Char → List Char
  | '*' :: rest => dropLeadingStars rest
  | l => l

/-- `pattern.replace(/\/?\*+$/, '')`: strip a trailing run of one or more
`*` together with at most one `/` immediately before it. -/
def getPatternPrefix (pattern : String) : String :=
  match pattern.data.reverse with
  | '*' :: _ =>
    let rest := dropLeadingStars pattern.data.reverse
    let rest := match rest with
                | '/' :: r => r
                | r => r
    String.mk rest.reverse
  | _ => pattern

/-- `rewritePath(path, pattern)` from `src/proxy-utils.js` lines 45-61 (the
source's local bindings `prefix` and `rewritten` are inlined): an empty
prefix (catch-all) returns the path unchanged; a path starting with the
prefix is cut after it, with a `/` prepended when the remainder lacks one;
a path not starting with the prefix is returned unchanged. -/
def rewritePath (path pattern : String) : String :=
  if getPatternPrefix pattern == "" then path
  else if strStartsWith path (getPatternPrefix pattern) then
    if strStartsWith (strDrop path (getPatternPrefix pattern).data.length) "/"
    then strDrop path (getPatternPrefix pattern).data.length
    else strAppend "/" (strDrop path (getPatternPrefix pattern).data.length)
  else path

/-! ## Targets and registry resolution (`findMatchingTarget`)

A target object as stored per user (`user-storage`/`addUserTarget`): the
source field names are kept (`target` is the upstream origin URL,
`cookies` the raw Cookie header value). -/

structure Target where
  name : String
  pattern : String
  target : String
  cookies : String
  headers : List (String × String)
deriving DecidableEq, Repr

instance : Inhabited Target := ⟨⟨"", "", "", "", []⟩⟩

def isCatchAll (p : String) : Bool := p == "/*" || p == "/**"

/-- The sort comparator of `findMatchingTarget` (lines 69-73 of
`src/proxy-utils.js`), read as "`a` sorts no later than `b`": a catch-all
pattern sorts after everything (comparator returns 1), everything sorts
before a catch-all (returns -1), and otherwise longer patterns sort first
(`b.pattern.length - a.pattern.length`).  For two catch-alls the JS
comparator is inconsistent (returns 1 both ways), so their relative order
is unspecified; this relation keeps their original order, which no theorem
below depends on. -/
def leB (a b : Target) : Bool :=
  isCatchAll b.pattern || (!isCatchAll a.pattern && decide (b.pattern.length ≤ a.pattern.length))

def targetLe (a b : Target) : Prop := leB a b = true

instance : DecidableRel targetLe := fun a b => inferInstanceAs (Decidable (_ = true))

/-- `findMatchingTarget(path, targets)`: sort by descending specificity,
then return the first target whose compiled pattern tests true on `path`. -/
def findMatchingTarget (path : String) (targets : List Target) : Option Target :=
  (List.insertionSort targetLe targets).find? fun t => patternTest t.pattern path

/-- `u` is strictly more specific than `t` in the sense of the spec: a
non-catch-all beats a catch-all, and among non-catch-alls a strictly longer
pattern string beats a shorter one. -/
def moreSpecific (u t : String) : Bool :=
  (!isCatchAll u && isCatchAll t) ||
    (!isCatchAll u && !isCatchAll t && decide (t.length < u.length))

instance : IsTotal Target targetLe :=
  ⟨fun a b => by
    unfold targetLe leB
    cases ha : isCatchAll a.pattern <;> cases hb : isCatchAll b.pattern <;>
      simp [ha, hb] <;> omega⟩

instance : IsTrans Target targetLe :=
  ⟨fun a b c hab hbc => by
    unfold targetLe leB at *
    cases ha : isCatchAll a.pattern <;> cases hb : isCatchAll b.pattern <;>
      cases hc : isCatchAll c.pattern <;> simp [ha, hb, hc] at * <;> omega⟩

/-! ## Session store (`user-storage`, the unnamed source file)

The module-level `Map` `userConfigs` is threaded explicitly as an
association list (JS `Map` iteration order is insertion order; `set` on an
existing key replaces the value in place, `delete` removes the entry).
`Date.now()` becomes an explicit `Int` argument `now`. -/

structure LoggingConfig where
  enabled : Bool
  logRequestBody : Bool
  logResponseBody : Bool
deriving DecidableEq, Repr

structure UserConfig where
  targets : List Target
  logging : LoggingConfig
  createdAt : Int
  lastAccessedAt : Int
deriving DecidableEq, Repr

/-- JS `Map.get` / `Map.has` (`none` ↔ absent). -/
def mapGet {α : Type} : List (String × α) → String → Option α
  | [], _ => none
  | (k, v) :: m, key => if k == key then some v else mapGet m key

/-- JS `Map.set`: replace in place if the key exists, else append. -/
def mapSet {α : Type} : List (String × α) → String → α → List (String × α)
  | [], key, v => [(key, v)]
  | (k, w) :: m, key, v => if k == key then (k, v) :: m else (k, w) :: mapSet m key v

/-- JS `Map.delete`. -/
def mapDelete {α : Type} : List (String × α) → String → List (String × α)
  | [], _ => []
  | (k, w) :: m, key => if k == key then m else (k, w) :: mapDelete m key

abbrev Store := List (String × UserConfig)

/-- `TOKEN_EXPIRY_MS = 24 * 60 * 60 * 1000` (24 hours). -/
def TOKEN_EXPIRY_MS : Int := 24 * 60 * 60 * 1000

/-- `getUserConfig(token)` (lines 142-159): `null` when the token is falsy
or unknown; when found but `now - lastAccessedAt > TOKEN_EXPIRY_MS` the
session is deleted and `null` returned; otherwise `lastAccessedAt` is set
to `now` (an in-place mutation of the stored object) and the session
returned.  The result pairs the returned value with the updated store. -/
def getUserConfig (now : Int) (store : Store) (token : String) :
    Option UserConfig × Store :=
  if token == "" then (none, store)
  else
    match mapGet store token with
    | none => (none, store)
    | some config =>
      if now - config.lastAccessedAt > TOKEN_EXPIRY_MS then
        (none, mapDelete store token)
      else
        let config' := { config with lastAccessedAt := now }
        (some config', mapSet store token config')

/-- `saveToFile` (lines 58-69): serializes the token → config map to JSON.
`JSON.stringify`/`JSON.parse` round-trip this data (string keys, string and
integer fields, arrays, plain objects) losslessly, so the on-disk record is
modeled as the association list itself. -/
def saveToFile (store : Store) : List (String × UserConfig) := store

/-- `loadFromFile` (lines 74-99): starting from the empty map, each entry
of the parsed snapshot is skipped when `now - lastAccessedAt >
TOKEN_EXPIRY_MS` and inserted otherwise, in snapshot order. -/
def loadFromFile (now : Int) (data : List (String × UserConfig)) : Store :=
  data.filter fun tc => !(now - tc.2.lastAccessedAt > TOKEN_EXPIRY_MS : Bool)

/-- JS `Array.prototype.findIndex` (`none` ↔ `-1`). -/
def findIndex {α : Type} (p : α → Bool) : List α → Option Nat
  | [] => none
  | a :: l => if p a then some 0 else (findIndex p l).map (· + 1)

/-- The message of `new Error('Target "' + name + '" not found')` thrown by
`updateUserTarget` and `removeUserTarget`. -/
def notFoundMsg (name : String) : String :=
  strAppend (strAppend "Target \"" name) "\" not found"

/-- The `updates` object of `updateUserTarget`: a field is `some` when the
patch carries that key. -/
structure TargetUpdate where
  name : Option String
  pattern : Option String
  target : Option String
  cookies : Option String
  headers : Option (List (String × String))
deriving DecidableEq, Repr

/-- The spread `{ ...old, ...updates }`: keys present in `updates` override,
absent keys keep the old value. -/
def mergeTarget (old : Target) (u : TargetUpdate) : Target :=
  { name := u.name.getD old.name
    pattern := u.pattern.getD old.pattern
    target := u.target.getD old.target
    cookies := u.cookies.getD old.cookies
    headers := u.headers.getD old.headers }

/-- The registry manipulation of `updateUserTarget` (lines 211-222, after
the token has been resolved by `getUserConfig`): `findIndex` on the name,
throw if `-1`, else assign `{ ...targets[index], ...updates }` at that
index. -/
def updateUserTargetR (targets : List Target) (name : String) (u : TargetUpdate) :
    Except String (List Target) :=
  match findIndex (fun t => t.name == name) targets with
  | none => Except.error (notFoundMsg name)
  | some index => Except.ok (targets.set index (mergeTarget (targets.getD index default) u))

/-- The registry manipulation of `removeUserTarget` (lines 234-241):
`findIndex` on the name, throw if `-1`, else `splice(index, 1)`. -/
def removeUserTargetR (targets : List Target) (name : String) :
    Except String (List Target) :=
  match findIndex (fun t => t.name == name) targets with
  | none => Except.error (notFoundMsg name)
  | some index => Except.ok (targets.eraseIdx index)

/-- The registry a caller holds after invoking remove: the new list on
success; on a throw the mutation never happened and the old list stands. -/
def applyRemove (targets : List Target) (name : String) : List Target :=
  match removeUserTargetR targets name with
  | Except.ok ts => ts
  | Except.error _ => targets

/-! ## Remote router (`src/remote-router.js`)

The Express request fields the router reads: the `x-proxy-token` header,
the parsed `token` query parameter, `req.path` (no query string) and
`req.url` (path plus query string).  `some ""` models an empty header or
query value, which is falsy in the JS truthiness tests. -/

structure ReqInfo where
  xProxyToken : Option String
  queryToken : Option String
  path : String
  url : String
deriving DecidableEq, Repr

/-- JS truthiness of a possibly-absent string: `undefined` and `''` are
falsy. -/
def jsTruthy : Option String → Bool
  | none => false
  | some s => !(s == "")

/-- The character class `[a-f0-9]` of the path-token regex: lowercase hex
only. -/
def isHexDigit (c : Char) : Bool :=
  ('a' ≤ c && c ≤ 'f') || ('0' ≤ c && c ≤ '9')

/-- `path.match(/^\/t\/([a-f0-9]{32})(\/.*)?$/)`: `some (token, rest)` on a
match, where `rest` is `pathMatch[2] || '/'` as used by `extractToken`. -/
def pathTokenMatch (path : String) : Option (String × String) :=
  match path.data with
  | '/' :: 't' :: '/' :: rest =>
    let tok := rest.take 32
    let rem := rest.drop 32
    if tok.length == 32 && tok.all isHexDigit && (rem.isEmpty || rem.head? == some '/')
    then some (String.mk tok, if rem.isEmpty then "/" else String.mk rem)
    else none
  | _ => none

structure ExtractResult where
  token : Option String
  path : String
  stripQuery : Bool
deriving DecidableEq, Repr

/-- `extractToken(req)` (lines 22-44): header first, then query parameter,
then the `/t/{32-hex}/...` path prefix, else no token. -/
def extractToken (req : ReqInfo) : ExtractResult :=
  if jsTruthy req.xProxyToken then
    { token := req.xProxyToken, path := req.path, stripQuery := false }
  else if jsTruthy req.queryToken then
    { token := req.queryToken, path := req.path, stripQuery := true }
  else
    match pathTokenMatch req.path with
    | some (tok, rest) => { token := some tok, path := rest, stripQuery := false }
    | none => { token := none, path := req.path, stripQuery := false }

/-! ### Middleware cache (`getOrCreateMiddleware`, lines 46-105)

The source comment says it: the cache is "keyed by target URL only".  A
middleware's forwarding behaviour is fully determined by the
`targetConfig` it closed over (cookies, headers, name), so a handler is
modeled as that configuration. -/

abbrev MiddlewareCache := List (String × Target)

/-- `getOrCreateMiddleware(targetConfig)`: look the cache up under
`targetConfig.target`; on a miss build a middleware closing over
`targetConfig` and cache it under that URL.  Returns the handler (the
configuration it closed over) and the updated cache. -/
def getOrCreateMiddleware (cache : MiddlewareCache) (targetConfig : Target) :
    Target × MiddlewareCache :=
  match mapGet cache targetConfig.target with
  | some mw => (mw, cache)
  | none => (targetConfig, mapSet cache targetConfig.target targetConfig)

/-! ### Query-string building and the forwarded upstream request
(`createRemoteRouter`, lines 111-194) -/

/-- The substring of `req.url` from the first `?` on (empty when the url
has no `?`); `url.includes('?')` is equivalent to this being non-empty. -/
def queryPart (url : String) : String :=
  String.mk (url.data.dropWhile fun c => !(c == '?'))

/-- `new URLSearchParams(q)` for a query string without percent-escapes or
`+`: strip one leading `?`, split on `&`, drop empty pieces, split each
piece at its first `=` (missing `=` gives an empty value). -/
def parseParams (q : List Char) : List (String × String) :=
  let body := match q with
              | '?' :: rest => rest
              | other => other
  (body.splitOn '&').filterMap fun piece =>
    match piece with
    | [] => none
    | _ =>
      some (String.mk (piece.takeWhile fun c => !(c == '=')),
            String.mk (((piece.dropWhile fun c => !(c == '=')).drop 1)))

/-- `URLSearchParams.toString()` for such parameters: `k=v` pieces joined
by `&`. -/
def serializeParams (ps : List (String × String)) : String :=
  String.mk (String.intercalate "&" (ps.map fun kv => strAppend (strAppend kv.1 "=") kv.2) |>.data)

/-- Lines 147-159: the query string for the upstream request; with
`stripQuery` set, the `token` key is removed (`params.delete('token')`
removes every entry of that name) and the remainder re-serialized,
prefixed by `?` when non-empty. -/
def buildQueryString (url : String) (stripQuery : Bool) : String :=
  let q := queryPart url
  if q == "" then ""
  else if stripQuery then
    let params := (parseParams q.data).filter fun kv => !(kv.1 == "token")
    let remaining := serializeParams params
    if remaining == "" then "" else strAppend "?" remaining
  else q

/-- What the remote router hands to the proxy: `req._finalPath` (the
rewritten path) is returned by the middleware's `pathRewrite` callback,
which in `http-proxy-middleware` replaces `req.url` wholesale, so the
upstream request URL is `targetConfig.target ++ rewrittenPath`. -/
structure UpstreamRequest where
  origin : String
  pathSent : String
deriving DecidableEq, Repr

inductive RouterOutcome where
  | errorNoToken
  | errorInvalidToken
  | errorNoTargets
  | errorNoMatch (path : String)
  | forward (u : UpstreamRequest)
deriving DecidableEq, Repr

/-- The request-handling pipeline of `createRemoteRouter` (lines 111-194):
extract the token, look the session up (`getUserConfig`, refreshing or
lazily expiring it), 503 on an empty target list, compute `queryString`
(lines 146-159 — a dead store in the source: the value is never read
again), resolve the matching target, rewrite the path, store it in
`req._finalPath` and delegate to the cached middleware whose `pathRewrite`
returns exactly `req._finalPath`. -/
def remoteRoute (now : Int) (store : Store) (cache : MiddlewareCache) (req : ReqInfo) :
    RouterOutcome × Store × MiddlewareCache :=
  let e := extractToken req
  match e.token with
  | none => (RouterOutcome.errorNoToken, store, cache)
  | some token =>
    match getUserConfig now store token with
    | (none, store') => (RouterOutcome.errorInvalidToken, store', cache)
    | (some userConfig, store') =>
      if userConfig.targets.isEmpty then (RouterOutcome.errorNoTargets, store', cache)
      else
        let _queryString := buildQueryString req.url e.stripQuery
        match findMatchingTarget e.path userConfig.targets with
        | none => (RouterOutcome.errorNoMatch e.path, store', cache)
        | some target =>
          let rewrittenPath := rewritePath e.path target.pattern
          let (mw, cache') := getOrCreateMiddleware cache target
          (RouterOutcome.forward ⟨mw.target, rewrittenPath⟩, store', cache')

/-- The URL of the upstream call made on a forward outcome. -/
def upstreamUrl : RouterOutcome → Option String
  | RouterOutcome.forward u => some (strAppend u.origin u.pathSent)
  | _ => none

/-- Concrete fixtures used by witnesses below. -/
def tApiUsers : Target := ⟨"users", "/api/users", "https://users.example", "", []⟩

def tApiStar : Target := ⟨"api", "/api/*", "https://api.example", "", []⟩

def tFallback : Target := ⟨"fallback", "/*", "https://fb.example", "", []⟩

def tAuthDeep : Target := ⟨"auth", "/auth/**", "https://auth.example", "", []⟩

/-- A target as updated twice in the C7 fixtures: its `cookies` value was
never part of any update call. -/
def tOld : Target := ⟨"a", "/a/*", "http://x", "keep", []⟩

def tOldB : Target := ⟨"a", "/a/*", "http://x", "other", []⟩

/-- A patch that carries only a new `pattern`. -/
def patchPat : TargetUpdate := ⟨none, some "/b/*", none, none, none⟩

/-- Two target configurations sharing an origin but differing in every
other field. -/
def cfgAlice : Target := ⟨"alice", "/*", "http://upstream.example", "cookieA", []⟩

def cfgBob : Target := ⟨"bob", "/api/*", "http://upstream.example", "cookieB", [("X-Extra", "1")]⟩

def defaultLogging : LoggingConfig := ⟨true, false, false⟩

/-- A session created (and last touched) at time 0. -/
def cfgAtZero : UserConfig := ⟨[tFallback], defaultLogging, 0, 0⟩

/-- The session of the C3 fixture: one catch-all target at `https://x.test`. -/
def cfgQ : UserConfig := ⟨[⟨"t1", "/*", "https://x.test", "", []⟩], defaultLogging, 0, 0⟩

/-- A request carrying its token as `?token=tok` plus one other query
parameter. -/
def reqQueryToken : ReqInfo := ⟨none, some "tok", "/anything", "/anything?token=tok&x=1"⟩

/-- 32 lowercase hex characters. -/
def hex32 : String := "aaaaaaaaaaaaaaaaaaaaaaaaaaaaaaaa"

/-- A request with an empty `X-Proxy-Token` header value and a well-formed
`/t/{token}/...` path. -/
def reqEmptyHeader : ReqInfo :=
  ⟨some "", none, "/t/aaaaaaaaaaaaaaaaaaaaaaaaaaaaaaaa/x",
   "/t/aaaaaaaaaaaaaaaaaaaaaaaaaaaaaaaa/x"⟩

/-! ## Theorems -/

example : patternTest "/api/*" "/api/users" = true := by decide
example : patternTest "/users/**" "/users/a/b/c" = true := by decide
example : patternTest "/api/users" "/api" = false := by decide
example : patternTest "/*" "/anything/at/all" = true := by decide
example : getPatternPrefix "/service-a/**" = "/service-a" := by decide
example : getPatternPrefix "/*" = "" := by decide
example : rewritePath "/elca/api/users" "/elca/*" = "/api/users" := by decide
example : extractToken reqQueryToken = ⟨some "tok", "/anything", true⟩ := by decide

theorem leB_refl (a : Target) : leB a a = true := by
  unfold leB
  cases h : isCatchAll a.pattern <;> simp [h]

/-- If the sort placed `t` no later than `u`, `u` is not strictly more
specific than `t`. -/
theorem leB_not_moreSpecific (t u : Target) (h : leB t u = true) :
    moreSpecific u.pattern t.pattern = false := by
  unfold leB at h
  unfold moreSpecific
  cases ht : isCatchAll t.pattern <;> cases hu : isCatchAll u.pattern <;>
    simp [ht, hu] at * <;> omega

/-- In a `targetLe`-pairwise list, the first element passing `p` is
`targetLe`-below every element passing `p`. -/
theorem find_first_le {p : Target → Bool} :
    ∀ (l : List Target) (t : Target), l.Pairwise targetLe → l.find? p = some t →
      ∀ u ∈ l, p u = true → targetLe t u := by
  intro l
  induction l with
  | nil => intro t _ h; simp at h
  | cons a l ih =>
    intro t hpw hf u hu hpu
    rw [List.pairwise_cons] at hpw
    by_cases hpa : p a = true
    · rw [List.find?_cons_of_pos _ hpa, Option.some_inj] at hf
      subst hf
      rcases List.mem_cons.mp hu with h | h
      · subst h; exact leB_refl _
      · exact hpw.1 u h
    · rw [List.find?_cons_of_neg _ (by simpa using hpa)] at hf
      rcases List.mem_cons.mp hu with h | h
      · subst h; simp [hpu] at hpa
      · exact ih t hpw.2 hf u h hpu

/-- Claim C2 (the code, evaluated at the failing input): the regex compiled
from the single-segment pattern `/api/*` is `^\/api\/[^/]*`, anchored at the
start only; without a `$` anchor its `test` accepts the two-segment path
`/api/a/b` (the claim's accepted single-segment input `/api/a` passes as
well). -/
theorem patternTest_missing_end_anchor :
    patternTest "/api/*" "/api/a" = true ∧ patternTest "/api/*" "/api/a/b" = true := by
  decide

/-- A string starting with `/` has a cons data list. -/
theorem strStartsWith_slash {s : String} (h : strStartsWith s "/" = true) :
    ∃ l, s.data = '/' :: l := by
  unfold strStartsWith at h
  have hd : ("/" : String).data = ['/'] := rfl
  rw [hd] at h
  cases hs : s.data with
  | nil => rw [hs] at h; simp [List.isPrefixOf] at h
  | cons c l =>
    rw [hs] at h
    simp [List.isPrefixOf] at h
    exact ⟨l, by rw [h]⟩

theorem ne_empty_of_data_cons {s : String} {c : Char} {l : List Char}
    (h : s.data = c :: l) : s ≠ "" := by
  intro he
  rw [he] at h
  exact List.noConfusion h

theorem strAppend_slash_data (r : String) : (strAppend "/" r).data = '/' :: r.data := rfl

theorem strStartsWith_strAppend_slash (r : String) :
    strStartsWith (strAppend "/" r) "/" = true := by
  unfold strStartsWith
  rw [strAppend_slash_data]
  have hd : ("/" : String).data = ['/'] := rfl
  rw [hd]
  simp [List.isPrefixOf]

/-- Claim C9 (counterexample): on an input that does not begin with `/`, the
catch-all branch of `rewritePath` returns it unchanged, so the result is not
a string beginning with `/` (with `""` it is empty as well). -/
theorem rewritePath_claim_cex :
    rewritePath "x" "/*" = "x" ∧ strStartsWith (rewritePath "x" "/*") "/" = false ∧
    rewritePath "" "/foo" = "" := by
  decide

/-- Claim C9 (amended): for every path that begins with `/` (every Express
request path does) and every pattern, `rewritePath` returns a non-empty
string whose first character is `/`. -/
theorem rewritePath_starts_with_slash (path pattern : String)
    (h : strStartsWith path "/" = true) :
    rewritePath path pattern ≠ "" ∧ strStartsWith (rewritePath path pattern) "/" = true := by
  obtain ⟨l0, hl0⟩ := strStartsWith_slash h
  unfold rewritePath
  by_cases hp : (getPatternPrefix pattern == "") = true
  · rw [if_pos hp]
    exact ⟨ne_empty_of_data_cons hl0, h⟩
  · rw [if_neg hp]
    by_cases hsw : strStartsWith path (getPatternPrefix pattern) = true
    · rw [if_pos hsw]
      by_cases hr2 : strStartsWith (strDrop path (getPatternPrefix pattern).data.length) "/" = true
      · rw [if_pos hr2]
        obtain ⟨l, hl⟩ := strStartsWith_slash hr2
        exact ⟨ne_empty_of_data_cons hl, hr2⟩
      · rw [if_neg hr2]
        exact ⟨ne_empty_of_data_cons (strAppend_slash_data _), strStartsWith_strAppend_slash _⟩
    · rw [if_neg hsw]
      exact ⟨ne_empty_of_data_cons hl0, h⟩

/-- Witness for C9: a concrete rewrite whose remainder lacks the leading
slash (`/lt` cut from `/ltx` leaves `x`) still yields a `/`-prefixed
non-empty path. -/
theorem rewritePath_starts_with_slash_witness :
    strStartsWith "/ltx" "/" = true ∧
    (rewritePath "/ltx" "/lt/*" ≠ "" ∧
     strStartsWith (rewritePath "/ltx" "/lt/*") "/" = true) :=
  ⟨by decide, rewritePath_starts_with_slash "/ltx" "/lt/*" (by decide)⟩

/-- Claim C6: the persistence round-trip `loadFromFile now (saveToFile S)`
keeps exactly the entries of `S` whose age `now - lastAccessedAt` does not
exceed the 24-hour window, in order and bit-for-bit (same token, same
targets, same logging overrides, same `createdAt`/`lastAccessedAt`), and
drops every entry whose age exceeds it. -/
theorem load_save_roundtrip (store : Store) (now : Int) :
    loadFromFile now (saveToFile store) =
      store.filter fun tc => decide (now - tc.2.lastAccessedAt ≤ TOKEN_EXPIRY_MS) := by
  unfold loadFromFile saveToFile
  apply List.filter_congr
  intro tc _
  by_cases h : now - tc.2.lastAccessedAt > TOKEN_EXPIRY_MS
  · have h2 : ¬(now - tc.2.lastAccessedAt ≤ TOKEN_EXPIRY_MS) := by omega
    simp [h, h2]
  · have h2 : now - tc.2.lastAccessedAt ≤ TOKEN_EXPIRY_MS := by omega
    simp [h, h2]

theorem findIndex_eq_none {α : Type} (p : α → Bool) :
    ∀ l : List α, (∀ x ∈ l, p x = false) → findIndex p l = none := by
  intro l
  induction l with
  | nil => intro _; rfl
  | cons a l ih =>
    intro h
    unfold findIndex
    rw [if_neg (by simp [h a (List.mem_cons_self a l)])]
    rw [ih fun x hx => h x (List.mem_cons_of_mem a hx)]
    rfl

/-- Removing the element `findIndex` found leaves no further match when the
list held at most one match. -/
theorem findIndex_erase_of_unique {α : Type} (p : α → Bool) :
    ∀ (l : List α) (i : Nat), (l.filter p).length ≤ 1 → findIndex p l = some i →
      findIndex p (l.eraseIdx i) = none := by
  intro l
  induction l with
  | nil => intro i _ h; exact absurd h (by simp [findIndex])
  | cons a l ih =>
    intro i hlen hf
    unfold findIndex at hf
    by_cases hpa : p a = true
    · rw [if_pos hpa, Option.some_inj] at hf
      subst hf
      rw [List.eraseIdx_cons_zero]
      rw [List.filter_cons_of_pos hpa] at hlen
      have hlen0 : (l.filter p).length = 0 := by
        simp only [List.length_cons] at hlen
        omega
      have hnil : l.filter p = [] := List.eq_nil_of_length_eq_zero hlen0
      exact findIndex_eq_none p l fun x hx => by
        by_contra hcon
        have hmem : x ∈ l.filter p := List.mem_filter.mpr ⟨hx, by simpa using hcon⟩
        rw [hnil] at hmem
        exact absurd hmem (List.not_mem_nil x)
    · rw [if_neg hpa] at hf
      rcases Option.map_eq_some'.mp hf with ⟨j, hj, hi⟩
      subst hi
      rw [List.eraseIdx_cons_succ]
      unfold findIndex
      rw [if_neg hpa]
      rw [List.filter_cons_of_neg (by simpa using hpa)] at hlen
      rw [ih j hlen hj]
      rfl

/-- Claim C8: removing the same name twice from a registry with unique
names: the first call succeeds, the second fails with the not-found error,
and (the throw happening before any mutation) the registry after the failed
call is exactly the registry after the first call. -/
theorem removeUserTarget_twice (targets : List Target) (name : String)
    (targets' : List Target)
    (huniq : (targets.filter fun t => t.name == name).length ≤ 1)
    (h1 : removeUserTargetR targets name = Except.ok targets') :
    removeUserTargetR targets' name = Except.error (notFoundMsg name) ∧
    applyRemove targets' name = targets' := by
  unfold removeUserTargetR at h1
  cases hf : findIndex (fun t => t.name == name) targets with
  | none => rw [hf] at h1; exact absurd h1 (by simp)
  | some i =>
    rw [hf] at h1
    have h2 : targets' = targets.eraseIdx i := by
      have := Except.ok.inj h1
      exact this.symm
    subst h2
    have hnone := findIndex_erase_of_unique (fun t => t.name == name) targets i huniq hf
    constructor
    · unfold removeUserTargetR
      rw [hnone]
    · unfold applyRemove removeUserTargetR
      rw [hnone]

/-- Witness for C8: removing `"users"` from `[tApiUsers]` leaves `[]`, and
the second removal fails with the not-found error leaving `[]` unchanged. -/
theorem removeUserTarget_twice_witness :
    removeUserTargetR [] "users" = Except.error (notFoundMsg "users") ∧
    applyRemove [] "users" = [] :=
  removeUserTarget_twice [tApiUsers] "users" [] (by decide) (by decide)

/-- Claim C7 (counterexample): updating `"a"` with a patch that carries only
a new pattern keeps the old `cookies` value — two registries differing only
in that never-supplied field produce different stored targets, so the stored
fields are not those supplied by the update call. -/
theorem updateUserTarget_merge_cex :
    updateUserTargetR [tOld] "a" patchPat =
      Except.ok [⟨"a", "/b/*", "http://x", "keep", []⟩] ∧
    updateUserTargetR [tOldB] "a" patchPat =
      Except.ok [⟨"a", "/b/*", "http://x", "other", []⟩] ∧
    (⟨"a", "/b/*", "http://x", "keep", []⟩ : Target) ≠
      ⟨"a", "/b/*", "http://x", "other", []⟩ := by
  decide

/-- Claim C7 (amended): `updateUserTargetR` fails with the not-found error
when no target carries the name; otherwise it stores, at the first index
carrying the name, the old target merged with the patch — every field
present in the patch replaces the old value, every absent field is
preserved. -/
theorem updateUserTarget_spec (targets : List Target) (name : String) (u : TargetUpdate) :
    ((∀ t ∈ targets, (t.name == name) = false) →
      updateUserTargetR targets name u = Except.error (notFoundMsg name)) ∧
    (∀ i, findIndex (fun t => t.name == name) targets = some i →
      updateUserTargetR targets name u =
        Except.ok (targets.set i (mergeTarget (targets.getD i default) u))) ∧
    (∀ old : Target,
      (u.name = none → (mergeTarget old u).name = old.name) ∧
      (∀ v, u.name = some v → (mergeTarget old u).name = v) ∧
      (u.pattern = none → (mergeTarget old u).pattern = old.pattern) ∧
      (∀ v, u.pattern = some v → (mergeTarget old u).pattern = v) ∧
      (u.target = none → (mergeTarget old u).target = old.target) ∧
      (∀ v, u.target = some v → (mergeTarget old u).target = v) ∧
      (u.cookies = none → (mergeTarget old u).cookies = old.cookies) ∧
      (∀ v, u.cookies = some v → (mergeTarget old u).cookies = v) ∧
      (u.headers = none → (mergeTarget old u).headers = old.headers) ∧
      (∀ v, u.headers = some v → (mergeTarget old u).headers = v)) := by
  refine ⟨?_, ?_, ?_⟩
  · intro h
    unfold updateUserTargetR
    rw [findIndex_eq_none _ targets h]
  · intro i hf
    unfold updateUserTargetR
    rw [hf]
  · intro old
    refine ⟨?_, ?_, ?_, ?_, ?_, ?_, ?_, ?_, ?_, ?_⟩ <;>
      first
        | (intro h; simp [mergeTarget, h])
        | (intro v h; simp [mergeTarget, h])

/-- Witness for C7: applying the pattern-only patch to `[tOld]` stores the
merge of `tOld` with the patch; its cookies survive from `tOld`. -/
theorem updateUserTarget_spec_witness :
    updateUserTargetR [tOld] "a" patchPat =
      Except.ok ([tOld].set 0 (mergeTarget ([tOld].getD 0 default) patchPat)) ∧
    (mergeTarget tOld patchPat).cookies = "keep" ∧
    (mergeTarget tOld patchPat).pattern = "/b/*" :=
  ⟨(updateUserTarget_spec [tOld] "a" patchPat).2.1 0 (by decide), by decide, by decide⟩

/-- Claim C4 (counterexample): at the exact 24-hour boundary — `now -
lastAccessedAt = TOKEN_EXPIRY_MS`, so `now - lastAccessedAt ≥ 24h` as the
claim words it — the code's strict `>` comparison keeps the session alive:
lookup returns it (refreshed) instead of `none`. -/
theorem getUserConfig_boundary_cex :
    TOKEN_EXPIRY_MS - cfgAtZero.lastAccessedAt ≥ TOKEN_EXPIRY_MS ∧
    (getUserConfig TOKEN_EXPIRY_MS [("tok", cfgAtZero)] "tok").1 =
      some { cfgAtZero with lastAccessedAt := TOKEN_EXPIRY_MS } := by
  decide

/-- Claim C4 (amended): lookup returns `none` when the token is unknown (or
empty, which JS treats as no token) or when `now - lastAccessedAt` strictly
exceeds 24h — in the latter case deleting the session from the store as a
side effect; on success `lastAccessedAt` is set to `now` (sliding expiry),
the refreshed session is stored back and returned. -/
theorem getUserConfig_lookup (now : Int) (store : Store) (token : String) :
    ((token = "" ∨ mapGet store token = none) →
      getUserConfig now store token = (none, store)) ∧
    (∀ cfg, token ≠ "" → mapGet store token = some cfg →
      now - cfg.lastAccessedAt > TOKEN_EXPIRY_MS →
      getUserConfig now store token = (none, mapDelete store token)) ∧
    (∀ cfg, token ≠ "" → mapGet store token = some cfg →
      now - cfg.lastAccessedAt ≤ TOKEN_EXPIRY_MS →
      getUserConfig now store token =
        (some { cfg with lastAccessedAt := now },
         mapSet store token { cfg with lastAccessedAt := now })) := by
  refine ⟨?_, ?_, ?_⟩
  · rintro (h | h)
    · unfold getUserConfig
      rw [if_pos (by simp [h])]
    · unfold getUserConfig
      by_cases ht : (token == "") = true
      · rw [if_pos ht]
      · rw [if_neg ht, h]
  · intro cfg ht hg hexp
    unfold getUserConfig
    rw [if_neg (by simpa using ht), hg]
    simp only []
    rw [if_pos hexp]
  · intro cfg ht hg hexp
    unfold getUserConfig
    rw [if_neg (by simpa using ht), hg]
    simp only []
    rw [if_neg (by omega)]

/-- Witness for C4: one lookup past the window deletes and returns `none`;
one within the window refreshes `lastAccessedAt` and returns the session. -/
theorem getUserConfig_lookup_witness :
    getUserConfig (TOKEN_EXPIRY_MS + 1) [("tok", cfgAtZero)] "tok" =
      (none, mapDelete [("tok", cfgAtZero)] "tok") ∧
    getUserConfig 5 [("tok", cfgAtZero)] "tok" =
      (some { cfgAtZero with lastAccessedAt := 5 },
       mapSet [("tok", cfgAtZero)] "tok" { cfgAtZero with lastAccessedAt := 5 }) :=
  ⟨(getUserConfig_lookup (TOKEN_EXPIRY_MS + 1) [("tok", cfgAtZero)] "tok").2.1 cfgAtZero
      (by decide) (by decide) (by decide),
   (getUserConfig_lookup 5 [("tok", cfgAtZero)] "tok").2.2 cfgAtZero
      (by decide) (by decide) (by decide)⟩

/-- Claim C1 (counterexample): two target configurations differing in name,
pattern, cookieHeader and extraHeaders but sharing an origin: the factory,
called with the second after caching the first, returns the handler built
from the first configuration (with its credentials), not a freshly built
one. -/
theorem middlewareCache_claim_cex :
    (getOrCreateMiddleware (getOrCreateMiddleware [] cfgAlice).2 cfgBob).1 = cfgAlice ∧
    cfgAlice.name ≠ cfgBob.name ∧ cfgAlice.pattern ≠ cfgBob.pattern ∧
    cfgAlice.cookies ≠ cfgBob.cookies ∧ cfgAlice.headers ≠ cfgBob.headers ∧
    cfgAlice.target = cfgBob.target ∧ cfgAlice ≠ cfgBob := by
  decide

/-- Claim C1 (amended): the middleware cache is keyed by the target origin
URL alone: a configuration whose origin is not yet cached gets a freshly
built handler (cached under that origin), and a configuration whose origin
is cached gets the stored handler back — whatever its other fields. -/
theorem getOrCreateMiddleware_origin_keyed (cache : MiddlewareCache) (cfg : Target) :
    (mapGet cache cfg.target = none →
      getOrCreateMiddleware cache cfg = (cfg, mapSet cache cfg.target cfg)) ∧
    (∀ mw, mapGet cache cfg.target = some mw →
      getOrCreateMiddleware cache cfg = (mw, cache)) := by
  constructor
  · intro h
    unfold getOrCreateMiddleware
    rw [h]
  · intro mw h
    unfold getOrCreateMiddleware
    rw [h]

/-- Witness for C1 (amended): the cached handler for the shared origin is
returned for `cfgBob` unchanged. -/
theorem getOrCreateMiddleware_origin_keyed_witness :
    getOrCreateMiddleware [("http://upstream.example", cfgAlice)] cfgBob =
      (cfgAlice, [("http://upstream.example", cfgAlice)]) :=
  (getOrCreateMiddleware_origin_keyed [("http://upstream.example", cfgAlice)] cfgBob).2
    cfgAlice (by decide)

/-- Claim C10 (counterexample): a token "supplied" as an empty header value
is not used as the lookup key — JS truthiness treats it as absent and
extraction falls through to the path form, not to `some ""`. -/
theorem extractToken_claim_cex :
    (extractToken reqEmptyHeader).token = some hex32 ∧
    (extractToken reqEmptyHeader).token ≠ some "" := by
  decide

/-- Claim C10 (amended): a non-empty header token is accepted verbatim —
any length, any characters, no hex validation; a non-empty query token
likewise (with `stripQuery` set); only the `/t/{token}/...` path form
enforces the 32-lowercase-hex shape. -/
theorem extractToken_verbatim (req : ReqInfo) :
    (∀ h, req.xProxyToken = some h → h ≠ "" →
      extractToken req = ⟨some h, req.path, false⟩) ∧
    (∀ q, jsTruthy req.xProxyToken = false → req.queryToken = some q → q ≠ "" →
      extractToken req = ⟨some q, req.path, true⟩) ∧
    (∀ tok rest, pathTokenMatch req.path = some (tok, rest) →
      tok.length = 32 ∧ tok.data.all isHexDigit = true) := by
  refine ⟨?_, ?_, ?_⟩
  · intro h hh hne
    have htr : jsTruthy req.xProxyToken = true := by
      simp [jsTruthy, hh, hne]
    unfold extractToken
    rw [if_pos htr, hh]
  · intro q hfalse hq hne
    have htr : jsTruthy req.queryToken = true := by
      simp [jsTruthy, hq, hne]
    unfold extractToken
    rw [if_neg (by simp [hfalse]), if_pos htr, hq]
  · intro tok rest h
    unfold pathTokenMatch at h
    split at h
    · dsimp only [] at h
      split at h
      · rename_i hguard
        simp only [Bool.and_eq_true, beq_iff_eq] at hguard
        injection h with h'
        injection h' with h1 h2
        subst h1
        exact ⟨hguard.1.1, hguard.1.2⟩
      · exact absurd h (by simp)
    · exact absurd h (by simp)

/-- Witness for C10 (amended): a header token of the wrong length and with
non-hex characters is returned verbatim as the token. -/
theorem extractToken_verbatim_witness :
    extractToken ⟨some "NOT-32-lowercase-hex!!", none, "/x", "/x"⟩ =
      ⟨some "NOT-32-lowercase-hex!!", "/x", false⟩ :=
  (extractToken_verbatim ⟨some "NOT-32-lowercase-hex!!", none, "/x", "/x"⟩).1
    "NOT-32-lowercase-hex!!" rfl (by decide)

/-- Claim C3 (the code, evaluated at the failing input): for a request
`/anything?token=tok&x=1` with the token in the query, the router computes
the token-stripped query string `?x=1` (lines 147-159) but never uses it:
the upstream URL is `origin + rewrittenPath` with no query string at all,
not `origin + rewrittenPath + "?x=1"` as the spec requires. -/
theorem remoteRoute_drops_stripped_query :
    buildQueryString "/anything?token=tok&x=1" true = "?x=1" ∧
    (remoteRoute 0 [("tok", cfgQ)] [] reqQueryToken).1 =
      RouterOutcome.forward ⟨"https://x.test", "/anything"⟩ ∧
    upstreamUrl (remoteRoute 0 [("tok", cfgQ)] [] reqQueryToken).1 =
      some "https://x.test/anything" ∧
    some "https://x.test/anything" ≠ some "https://x.test/anything?x=1" := by
  decide

/-- Claim C5: `findMatchingTarget` resolves a path to the most specific
matching target: whenever some target matches, a target is returned; the
returned target matches; and no other matching target is strictly more
specific than it (catch-all patterns least specific regardless of length,
longer pattern string more specific among non-catch-alls). -/
theorem findMatchingTarget_most_specific (targets : List Target) (path : String) :
    ((∃ u ∈ targets, patternTest u.pattern path = true) →
      (findMatchingTarget path targets).isSome = true) ∧
    (∀ t, findMatchingTarget path targets = some t →
      t ∈ targets ∧ patternTest t.pattern path = true ∧
      ∀ u ∈ targets, patternTest u.pattern path = true →
        moreSpecific u.pattern t.pattern = false) := by
  constructor
  · rintro ⟨u, hu, hpu⟩
    rw [Option.isSome_iff_ne_none]
    intro hnone
    rw [findMatchingTarget, List.find?_eq_none] at hnone
    exact hnone u ((List.mem_insertionSort targetLe).mpr hu) hpu
  · intro t hf
    rw [findMatchingTarget] at hf
    have hmem : t ∈ List.insertionSort targetLe targets := List.mem_of_find?_eq_some hf
    refine ⟨(List.mem_insertionSort targetLe).mp hmem, by simpa using List.find?_some hf, ?_⟩
    intro u hu hpu
    have hle : targetLe t u :=
      find_first_le (List.insertionSort targetLe targets) t
        (List.sorted_insertionSort targetLe targets) hf u
        ((List.mem_insertionSort targetLe).mpr hu) hpu
    exact leB_not_moreSpecific t u hle

/-- Witness for C5: with targets `/api/users`, `/api/*`, `/*` a request to
`/api/users` resolves to the `/api/users` target and nothing strictly more
specific matches; with `/*` plus `/auth/**`, `/auth/login` resolves to the
`/auth/**` target, not the fallback. -/
theorem findMatchingTarget_most_specific_witness :
    (tApiUsers ∈ [tApiUsers, tApiStar, tFallback] ∧
     patternTest tApiUsers.pattern "/api/users" = true ∧
     ∀ u ∈ [tApiUsers, tApiStar, tFallback], patternTest u.pattern "/api/users" = true →
       moreSpecific u.pattern tApiUsers.pattern = false) ∧
    findMatchingTarget "/api/users" [tApiUsers, tApiStar, tFallback] = some tApiUsers ∧
    findMatchingTarget "/auth/login" [tFallback, tAuthDeep] = some tAuthDeep :=
  ⟨(findMatchingTarget_most_specific [tApiUsers, tApiStar, tFallback] "/api/users").2
      tApiUsers (by decide),
   by decide, by decide⟩

end ProxyNode
